import Mathlib

/-!
# Verification of the attendance backfill core (Code.js)

Shallow embedding of the activity-score / backfill-event core of
`src/Code.js`: the score resolution switch, the stats lookup, the
backdated-event date generator `generateRecentDistinctDates`, the
event-row builder, and the per-person processing loop of
`updateActivityLevels`.

Dates are modelled at calendar-day granularity as serial day numbers
(a strictly monotone linearization of Gregorian dates): in the source,
each candidate date is the reference date minus `i` days and the
comparison against the quarter-start date is a timestamp comparison
that, at day granularity, coincides with serial-day comparison (the
candidate carries the reference date's time-of-day, the quarter start
is a local midnight). Cell values read from the spreadsheet are
modelled as strings, since every use in the source goes through
`String(...)` conversion, `trim`, `toLowerCase`, or `parseInt`.
-/

/-- Leap-year test, as the Gregorian calendar used by the host `Date` type. -/
def isLeap (y : Int) : Bool :=
  (y % 4 == 0 && y % 100 != 0) || y % 400 == 0

/-- Cumulative days before each (0-based) month in a non-leap year. -/
def monthOffset : Nat → Nat
  | 0 => 0
  | 1 => 31
  | 2 => 59
  | 3 => 90
  | 4 => 120
  | 5 => 151
  | 6 => 181
  | 7 => 212
  | 8 => 243
  | 9 => 273
  | 10 => 304
  | _ => 334

/-- Cumulative days before 0-based month `m`, adjusted for leap years. -/
def daysBeforeMonth (leap : Bool) (m : Nat) : Nat :=
  monthOffset m + (if leap && decide (2 ≤ m) then 1 else 0)

/-- Day count contributed by whole years before year `y` (a fixed affine
linearization of years; only differences within the same year matter to the
generator, so any strictly monotone year offset is faithful). -/
def daysInYearsBefore (y : Int) : Int :=
  365 * y + Int.fdiv y 4 - Int.fdiv y 100 + Int.fdiv y 400

/-- Serial day number of the Gregorian date (`y`, 0-based month `m`,
1-based day `d`): consecutive calendar days map to consecutive integers. -/
def toSerial (y : Int) (m d : Nat) : Int :=
  daysInYearsBefore y + (daysBeforeMonth (isLeap y) m : Int) + (d : Int) - 1

/-- The 0-based month on which the quarter containing 0-based month `m`
starts, exactly as computed in `generateRecentDistinctDates`
(Code.js lines 663-667): months 0/3/6/9. -/
def quarterStartMonth (m : Nat) : Nat :=
  if m < 3 then 0 else if m < 6 then 3 else if m < 9 then 6 else 9

/-- The backward day-by-day walk of `generateRecentDistinctDates`
(Code.js lines 669-676): starting at serial day `cur`, emit the current
day and step back one day, up to `n` days, breaking the first time the
candidate falls strictly before the quarter start `qs`. -/
def genFrom (qs : Int) : Nat → Int → List Int
  | 0, _ => []
  | n + 1, cur => if cur < qs then [] else cur :: genFrom qs n (cur - 1)

/-- `generateRecentDistinctDates` (Code.js lines 658-678) at day
granularity: `N ≤ 0` gives the empty list; otherwise walk backward from
the reference date (`y`, month `m`, day `d`), stopping at the start of
the reference date's calendar quarter. The source emits each day
formatted as a string; the model emits the serial day number (the
day identity that the formatting carries). -/
def generateRecentDistinctDates (N : Int) (y : Int) (m d : Nat) : List Int :=
  if N ≤ 0 then []
  else genFrom (toSerial y (quarterStartMonth m) 1) N.toNat (toSerial y m d)

/-- Closed form of the backward walk: it emits `cur, cur − 1, …`,
truncated both at `n` entries and at the quarter start. -/
theorem genFrom_closed (qs : Int) :
    ∀ (n : Nat) (cur : Int),
      genFrom qs n cur
        = (List.range (min n (cur + 1 - qs).toNat)).map (fun i : Nat => cur - (i : Int)) := by
  intro n
  induction n with
  | zero => intro cur; simp [genFrom]
  | succ n ih =>
    intro cur
    rw [genFrom]
    by_cases h : cur < qs
    · rw [if_pos h]
      have h0 : (cur + 1 - qs).toNat = 0 := by omega
      simp [h0]
    · rw [if_neg h]
      have h1 : (cur + 1 - qs).toNat = (cur - qs).toNat + 1 := by omega
      have h2 : (cur - 1 + 1 - qs).toNat = (cur - qs).toNat := by omega
      rw [ih, h1, Nat.succ_min_succ, List.range_succ_eq_map]
      simp only [List.map_cons, List.map_map, h2]
      congr 1
      · omega
      · apply List.map_congr_left
        intro i _
        simp only [Function.comp_apply]
        push_cast
        ring

/-- Closed form of the full generator. -/
theorem gen_closed (N : Int) (y : Int) (m d : Nat) :
    generateRecentDistinctDates N y m d
      = (List.range (min N.toNat
            (toSerial y m d + 1 - toSerial y (quarterStartMonth m) 1).toNat)).map
          (fun i : Nat => toSerial y m d - (i : Int)) := by
  rw [generateRecentDistinctDates]
  by_cases h : N ≤ 0
  · rw [if_pos h]
    have h0 : N.toNat = 0 := by omega
    simp [h0]
  · rw [if_neg h, genFrom_closed]

/-- The quarter-start month is never past the reference month, for any
valid 0-based month (a `Date`'s `getMonth()` is always in `0..11`). -/
theorem daysBeforeMonth_quarter_le :
    ∀ m : Nat, m < 12 → ∀ l : Bool,
      daysBeforeMonth l (quarterStartMonth m) ≤ daysBeforeMonth l m := by
  decide

/-- The reference date is never strictly before the start of its own
calendar quarter. -/
theorem quarterStart_le_toSerial (y : Int) (m d : Nat) (hd : 1 ≤ d) (hm : m < 12) :
    toSerial y (quarterStartMonth m) 1 ≤ toSerial y m d := by
  have h := daysBeforeMonth_quarter_le m hm (isLeap y)
  simp only [toSerial]
  omega

/-- Whitespace as trimmed by the host platform's `trim()` (the common
ASCII whitespace; enough for the cell values the core compares). -/
def isWs (c : Char) : Bool :=
  c = ' ' || c = '\t' || c = '\n' || c = '\r'

/-- `String(v).trim()` at character-list level. -/
def trimL (cs : List Char) : List Char :=
  ((cs.dropWhile isWs).reverse.dropWhile isWs).reverse

/-- `toLowerCase()` of one character (ASCII; the case-insensitive
comparisons of the source are modelled on the ASCII range). -/
def lowerC (c : Char) : Char :=
  if 'A' ≤ c && c ≤ 'Z' then Char.ofNat (c.toNat + 32) else c

/-- `toLowerCase()` at character-list level. -/
def lowerL (cs : List Char) : List Char :=
  cs.map lowerC

/-- `String(v).trim()` as a string. -/
def trimStr (s : String) : String :=
  ⟨trimL s.data⟩

/-- `String(v).trim().toLowerCase()` as a string. -/
def lowerTrimStr (s : String) : String :=
  ⟨lowerL (trimL s.data)⟩

/-- Digits at the head of a character list, as consumed by the host
platform's base-10 `parseInt`. -/
def leadingDigits (cs : List Char) : List Char :=
  cs.takeWhile (fun c => c.isDigit)

/-- Numeric value of a digit string. -/
def natFromDigits (ds : List Char) : Nat :=
  ds.foldl (fun a c => a * 10 + (c.toNat - 48)) 0

/-- Base-10 integer parse of a character list, JS `parseInt(·, 10) || 0`
semantics (Code.js lines 316-317): optional sign, then the longest digit
run; when no digit follows (parse failure, `NaN`), the `|| 0` fallback
yields 0. -/
def parseSigned (cs : List Char) : Int :=
  match cs with
  | [] => 0
  | c :: rest =>
    if c = '-' then
      if (leadingDigits rest).isEmpty then 0 else -(natFromDigits (leadingDigits rest) : Int)
    else if c = '+' then
      if (leadingDigits rest).isEmpty then 0 else (natFromDigits (leadingDigits rest) : Int)
    else
      if (leadingDigits cs).isEmpty then 0 else (natFromDigits (leadingDigits cs) : Int)

/-- `parseInt(String(v), 10) || 0` on a cell value: leading/trailing
whitespace is irrelevant to the prefix parse, modelled by trimming. -/
def parseIntOr0 (s : String) : Int :=
  parseSigned (trimL s.data)

/-- Whether `parseInt(·, 10)` would succeed on the value (some digit
follows the optional sign). -/
def parsesAsInt (s : String) : Bool :=
  match trimL s.data with
  | [] => false
  | c :: rest =>
    if c = '-' then !(leadingDigits rest).isEmpty
    else if c = '+' then !(leadingDigits rest).isEmpty
    else !(leadingDigits (c :: rest)).isEmpty

/-- Truthiness-plus-trim test applied to every identity cell in the
source (`v && String(v).trim() !== ""`, Code.js lines 300-303). -/
def presentCell (s : String) : Bool :=
  !(trimL s.data).isEmpty

/-- A data row of the 'Update Attendance Tracker' tab (columns A-E,
Code.js lines 294-298). -/
structure UatRow where
  personId : String
  fullName : String
  lastName : String
  firstName : String
  activityLevel : String

/-- The fields of an 'Attendance Stats' row that the core reads
(columns A, C, D, E, L; Code.js lines 311-317). -/
structure StatsRow where
  personId : String
  firstName : String
  lastName : String
  quarterEvents : String
  activityScore : String

/-- An appended 'Event Attendance' row (the non-null cells of the
14-cell row built at Code.js lines 351-358). -/
structure EventRow where
  personId : String
  fullName : String
  eventLabel : String
  firstName : String
  lastName : String
  eventDate : Int
  loggedAt : String
  deriving DecidableEq

/-- The stats-row match predicate of the per-person lookup (Code.js
lines 312-314): person id compared trimmed (case-sensitively), first
and last names compared trimmed and lowercased. -/
def statsMatches (r : StatsRow) (pid fn ln : String) : Bool :=
  trimStr r.personId == trimStr pid
    && lowerTrimStr r.firstName == lowerTrimStr fn
    && lowerTrimStr r.lastName == lowerTrimStr ln

/-- The per-person stats fetch (Code.js lines 308-320): first matching
row wins; its E and L columns are parsed with `parseInt(·,10) || 0`; no
match leaves the cold-start default `(0, 0)`. -/
def fetchCurrentStats (stats : List StatsRow) (pid fn ln : String) : Int × Int :=
  match stats.find? (fun r => statsMatches r pid fn ln) with
  | some r => (parseIntOr0 r.quarterEvents, parseIntOr0 r.activityScore)
  | none => (0, 0)

/-- Modelled from the spec's words (section 6, stats source): the same
lookup but with the person id also compared case-insensitively, for
comparison with the source's `fetchCurrentStats`. -/
def statsMatchesSpec (r : StatsRow) (pid fn ln : String) : Bool :=
  lowerTrimStr r.personId == lowerTrimStr pid
    && lowerTrimStr r.firstName == lowerTrimStr fn
    && lowerTrimStr r.lastName == lowerTrimStr ln

/-- The spec-worded lookup built on `statsMatchesSpec`. -/
def fetchCurrentStatsSpec (stats : List StatsRow) (pid fn ln : String) : Int × Int :=
  match stats.find? (fun r => statsMatchesSpec r pid fn ln) with
  | some r => (parseIntOr0 r.quarterEvents, parseIntOr0 r.activityScore)
  | none => (0, 0)

/-- The score-resolution switch (Code.js lines 324-344) on the trimmed,
lowercased level string. The `active` arm inlines the source's
assignment chain: `tentative = K + 3`; `target = E + tentative`;
`target = max(3, target)`; `target = min(11, target)`;
`K' = max(0, target − E)`. Unknown levels resolve to `none`. -/
def resolveScore (levelNorm : String) (E K : Int) : Option Int :=
  if levelNorm = "inactive" then some 1
  else if levelNorm = "active" then some (max 0 (min 11 (max 3 (E + (K + 3))) - E))
  else if levelNorm = "core" then some 12
  else none

/-- The event-row construction loop (Code.js lines 349-362): one row per
date, carrying a 1-based counter in the label; `counter` is the current
value of `eventCounter`. -/
def buildEventRowsAux (pid full fn ln loggedAt : String) :
    Nat → List Int → List EventRow
  | _, [] => []
  | counter, date :: rest =>
    { personId := pid, fullName := full,
      eventLabel := "BASELINE ADJUSTMENT " ++ toString counter,
      firstName := fn, lastName := ln,
      eventDate := date, loggedAt := loggedAt }
      :: buildEventRowsAux pid full fn ln loggedAt (counter + 1) rest

/-- The builder entry point: the counter starts at 1
(Code.js line 349). -/
def buildEventRows (pid full fn ln : String) (dates : List Int)
    (loggedAt : String) : List EventRow :=
  buildEventRowsAux pid full fn ln loggedAt 1 dates

/-- The skip-list entry recorded for an unknown activity level
(Code.js line 342). -/
def skippedDetail (row : UatRow) : String :=
  row.firstName ++ " " ++ row.lastName ++ " (ID: " ++ row.personId ++ ") - Unknown Level"

/-- The completeness test of the per-person branch (Code.js
lines 300-303): id, last name, first name and activity level all
present. -/
def completeRow (row : UatRow) : Bool :=
  presentCell row.personId && presentCell row.lastName
    && presentCell row.firstName && presentCell row.activityLevel

/-- The mutable state threaded through one run of
`updateActivityLevels`: the stats sheet (read-only in the source), the
'Event Attendance' sheet (append-only), and the counters and skip list
of the summary (Code.js lines 283-286). -/
structure RunState where
  statsData : List StatsRow
  eventLog : List EventRow
  skipped : List String
  recordsToProcessCount : Nat
  recordsMissingDetails : Nat
  eventAttendancesLogged : Nat

/-- One iteration of the per-person loop of `updateActivityLevels`
(Code.js lines 293-378), for a run whose reference date is
(`y`, month `m`, day `d`) and whose formatted execution date is
`loggedAt`: complete rows are counted, looked up in stats, resolved,
and either skipped (unknown level) or turned into appended backfill
rows; incomplete rows with a level are counted separately; blank rows
are ignored. -/
def processRow (y : Int) (m d : Nat) (loggedAt : String)
    (st : RunState) (row : UatRow) : RunState :=
  if completeRow row then
    match resolveScore (lowerTrimStr row.activityLevel)
        (fetchCurrentStats st.statsData row.personId row.firstName row.lastName).1
        (fetchCurrentStats st.statsData row.personId row.firstName row.lastName).2 with
    | none =>
      { st with recordsToProcessCount := st.recordsToProcessCount + 1,
                skipped := st.skipped ++ [skippedDetail row] }
    | some kNew =>
      if 0 < kNew then
        if 0 < (buildEventRows row.personId row.fullName row.firstName row.lastName
            (generateRecentDistinctDates kNew y m d) loggedAt).length then
          { st with recordsToProcessCount := st.recordsToProcessCount + 1,
                    eventLog := st.eventLog ++
                      buildEventRows row.personId row.fullName row.firstName row.lastName
                        (generateRecentDistinctDates kNew y m d) loggedAt,
                    eventAttendancesLogged := st.eventAttendancesLogged +
                      (buildEventRows row.personId row.fullName row.firstName row.lastName
                        (generateRecentDistinctDates kNew y m d) loggedAt).length }
        else { st with recordsToProcessCount := st.recordsToProcessCount + 1 }
      else { st with recordsToProcessCount := st.recordsToProcessCount + 1 }
  else if presentCell row.activityLevel then
    { st with recordsMissingDetails := st.recordsMissingDetails + 1 }
  else st

/-- The whole per-person loop of `updateActivityLevels`: a left fold of
`processRow` over the tracker rows. -/
def updateActivityLevelsRun (y : Int) (m d : Nat) (loggedAt : String)
    (uat : List UatRow) (st : RunState) : RunState :=
  uat.foldl (processRow y m d loggedAt) st

/-- Unfolding one step of the run. -/
theorem updateActivityLevelsRun_cons (y : Int) (m d : Nat) (loggedAt : String)
    (row : UatRow) (rest : List UatRow) (st : RunState) :
    updateActivityLevelsRun y m d loggedAt (row :: rest) st
      = updateActivityLevelsRun y m d loggedAt rest (processRow y m d loggedAt st row) := rfl

/-- Each built row carries the date it was built from, in order. -/
theorem buildEventRowsAux_map_eventDate (pid full fn ln la : String) :
    ∀ (dates : List Int) (c : Nat),
      (buildEventRowsAux pid full fn ln la c dates).map (fun r => r.eventDate) = dates := by
  intro dates
  induction dates with
  | nil => intro c; rfl
  | cons date rest ih =>
    intro c
    simp only [buildEventRowsAux, List.map_cons, ih]

/-- The builder emits one row per date. -/
theorem buildEventRowsAux_length (pid full fn ln la : String)
    (dates : List Int) (c : Nat) :
    (buildEventRowsAux pid full fn ln la c dates).length = dates.length := by
  have h := buildEventRowsAux_map_eventDate pid full fn ln la dates c
  calc (buildEventRowsAux pid full fn ln la c dates).length
      = ((buildEventRowsAux pid full fn ln la c dates).map (fun r => r.eventDate)).length :=
        (List.length_map _ _).symm
    _ = dates.length := by rw [h]

/-- The labels carry the running counter, in emission order. -/
theorem buildEventRowsAux_map_label (pid full fn ln la : String) :
    ∀ (dates : List Int) (c : Nat),
      (buildEventRowsAux pid full fn ln la c dates).map (fun r => r.eventLabel)
        = (List.range dates.length).map
            (fun i => "BASELINE ADJUSTMENT " ++ toString (c + i)) := by
  intro dates
  induction dates with
  | nil => intro c; rfl
  | cons date rest ih =>
    intro c
    simp only [buildEventRowsAux, List.map_cons, ih, List.length_cons,
      List.range_succ_eq_map, List.map_map]
    congr 1
    apply List.map_congr_left
    intro i _
    simp only [Function.comp_apply]
    have h : c + 1 + i = c + Nat.succ i := by omega
    rw [h]

/-- Every built row shares the batch's identity fields and logging
date. -/
theorem buildEventRowsAux_fields (pid full fn ln la : String) :
    ∀ (dates : List Int) (c : Nat),
      ∀ r ∈ buildEventRowsAux pid full fn ln la c dates,
        r.personId = pid ∧ r.fullName = full ∧ r.firstName = fn
          ∧ r.lastName = ln ∧ r.loggedAt = la := by
  intro dates
  induction dates with
  | nil => intro c r hr; cases hr
  | cons date rest ih =>
    intro c r hr
    simp only [buildEventRowsAux] at hr
    rcases List.mem_cons.mp hr with hr' | hr'
    · subst hr'
      exact ⟨rfl, rfl, rfl, rfl, rfl⟩
    · exact ih (c + 1) r hr'

/-- The `active` arm of the switch, with the assignment chain rewritten
as one clamped expression. -/
theorem resolveScore_active_eq (E K : Int) :
    resolveScore "active" E K = some (max 0 (min 11 (max 3 (E + K + 3)) - E)) := by
  have h : resolveScore "active" E K
      = some (max 0 (min 11 (max 3 (E + (K + 3))) - E)) := rfl
  rw [h]
  congr 1
  omega

/-- Any level outside the three known ones resolves to `none`. -/
theorem resolveScore_unknown (lvl : String)
    (h1 : lvl ≠ "inactive") (h2 : lvl ≠ "active") (h3 : lvl ≠ "core")
    (E K : Int) : resolveScore lvl E K = none := by
  unfold resolveScore
  rw [if_neg h1, if_neg h2, if_neg h3]

/-- `processRow` never touches the stats sheet. -/
theorem processRow_statsData (y : Int) (m d : Nat) (loggedAt : String)
    (st : RunState) (row : UatRow) :
    (processRow y m d loggedAt st row).statsData = st.statsData := by
  unfold processRow
  repeat' split
  all_goals rfl

/-- `processRow` only ever appends to the event log. -/
theorem processRow_eventLog (y : Int) (m d : Nat) (loggedAt : String)
    (st : RunState) (row : UatRow) :
    ∃ rows, (processRow y m d loggedAt st row).eventLog = st.eventLog ++ rows := by
  unfold processRow
  repeat' split
  all_goals first
    | exact ⟨_, rfl⟩
    | exact ⟨[], by simp⟩

/-- C1: for the Active level, the resolver returns
max(0, clamp(E + K + 3, 3, 11) − E); consequently for integers
E ≥ 0 and K ≥ 0 the result lies in [0, 11 − E] when E ≤ 11 and equals
exactly 0 when E > 11. -/
theorem claim_active_resolution (E K : Int) :
    resolveScore "active" E K = some (max 0 (min 11 (max 3 (E + K + 3)) - E))
      ∧ (0 ≤ E → 0 ≤ K →
          (E ≤ 11 → 0 ≤ max 0 (min 11 (max 3 (E + K + 3)) - E)
            ∧ max 0 (min 11 (max 3 (E + K + 3)) - E) ≤ 11 - E)
          ∧ (11 < E → max 0 (min 11 (max 3 (E + K + 3)) - E) = 0)) := by
  refine ⟨resolveScore_active_eq E K, ?_⟩
  intro hE hK
  constructor
  · intro hE11
    constructor
    · exact le_max_left 0 _
    · omega
  · intro hE11
    omega

/-- Witness for C1 at E = 5, K = 0 (the spec's Scenario A). -/
theorem claim_active_resolution_witness :
    resolveScore "active" 5 0 = some (max 0 (min 11 (max 3 ((5 : Int) + 0 + 3)) - 5))
      ∧ (0 : Int) ≤ max 0 (min 11 (max 3 ((5 : Int) + 0 + 3)) - 5)
      ∧ max 0 (min 11 (max 3 ((5 : Int) + 0 + 3)) - 5) ≤ 11 - 5 := by
  have h := claim_active_resolution 5 0
  exact ⟨h.1, (h.2 (by decide) (by decide)).1 (by decide)⟩

/-- C4: Inactive resolves to 1 and Core to 12 unconditionally, the E
and K arguments being ignored (any integers, negative included). -/
theorem claim_inactive_core_constant (E K : Int) :
    resolveScore "inactive" E K = some 1 ∧ resolveScore "core" E K = some 12 :=
  ⟨rfl, rfl⟩

/-- C3: the generator returns [] when N ≤ 0; otherwise it emits the
reference day and walks backward day by day, stopping (not skipping)
the first time a candidate crosses strictly before the quarter start,
which is day 1 of month 0, 3, 6 or 9 of the reference year chosen from
the reference month; hence at most N dates, none before the quarter
start, all distinct consecutive strictly-decreasing days. -/
theorem claim_generate_dates (N : Int) (y : Int) (m d : Nat) :
    (N ≤ 0 → generateRecentDistinctDates N y m d = [])
    ∧ generateRecentDistinctDates N y m d
        = (List.range (min N.toNat
              (toSerial y m d + 1 - toSerial y (quarterStartMonth m) 1).toNat)).map
            (fun i : Nat => toSerial y m d - (i : Int))
    ∧ (generateRecentDistinctDates N y m d).length ≤ N.toNat
    ∧ (∀ x ∈ generateRecentDistinctDates N y m d,
        toSerial y (quarterStartMonth m) 1 ≤ x ∧ x ≤ toSerial y m d)
    ∧ List.Chain' (fun a b => b = a - 1) (generateRecentDistinctDates N y m d)
    ∧ (m < 12 → (quarterStartMonth m = 0 ∨ quarterStartMonth m = 3
        ∨ quarterStartMonth m = 6 ∨ quarterStartMonth m = 9)
        ∧ quarterStartMonth m ≤ m ∧ m < quarterStartMonth m + 3) := by
  refine ⟨?_, gen_closed N y m d, ?_, ?_, ?_, ?_⟩
  · intro h
    rw [generateRecentDistinctDates, if_pos h]
  · rw [gen_closed]
    simp only [List.length_map, List.length_range]
    exact min_le_left _ _
  · rw [gen_closed]
    intro x hx
    simp only [List.mem_map, List.mem_range] at hx
    obtain ⟨i, hi, rfl⟩ := hx
    omega
  · rw [gen_closed, List.chain'_map]
    rcases hK : min N.toNat
        (toSerial y m d + 1 - toSerial y (quarterStartMonth m) 1).toNat with _ | k
    · simp
    · rw [List.chain'_range_succ]
      intro j hj
      push_cast
      ring
  · intro hm
    have h := (by decide : ∀ mm : Nat, mm < 12 →
      (quarterStartMonth mm = 0 ∨ quarterStartMonth mm = 3
        ∨ quarterStartMonth mm = 6 ∨ quarterStartMonth mm = 9)
      ∧ quarterStartMonth mm ≤ mm ∧ mm < quarterStartMonth mm + 3)
    exact h m hm

/-- Witness for C3: the N ≤ 0 clause at N = 0 and the quarter-month
characterization at month 4 (May, whose quarter starts in April). -/
theorem claim_generate_dates_witness :
    generateRecentDistinctDates 0 2026 4 10 = []
      ∧ ((quarterStartMonth 4 = 0 ∨ quarterStartMonth 4 = 3 ∨ quarterStartMonth 4 = 6
          ∨ quarterStartMonth 4 = 9) ∧ quarterStartMonth 4 ≤ 4 ∧ 4 < quarterStartMonth 4 + 3) :=
  ⟨(claim_generate_dates 0 2026 4 10).1 (by decide),
   (claim_generate_dates 0 2026 4 10).2.2.2.2.2 (by decide)⟩

/-- C10: for every N > 0 the generator's output is non-empty and starts
with the reference date itself, since the reference date is never
strictly before its own quarter start. -/
theorem claim_generate_head (N : Int) (y : Int) (m d : Nat)
    (hN : 0 < N) (hd : 1 ≤ d) (hm : m < 12) :
    generateRecentDistinctDates N y m d ≠ []
    ∧ (generateRecentDistinctDates N y m d).head? = some (toSerial y m d) := by
  have hqs := quarterStart_le_toSerial y m d hd hm
  rw [generateRecentDistinctDates, if_neg (by omega)]
  obtain ⟨k, hk⟩ : ∃ k, N.toNat = k + 1 := ⟨N.toNat - 1, by omega⟩
  rw [hk]
  simp only [genFrom, if_neg (by omega : ¬ toSerial y m d < toSerial y (quarterStartMonth m) 1)]
  exact ⟨by simp, rfl⟩

/-- Witness for C10 at N = 1, reference date 2026, month 4, day 10. -/
theorem claim_generate_head_witness :
    generateRecentDistinctDates 1 2026 4 10 ≠ []
    ∧ (generateRecentDistinctDates 1 2026 4 10).head? = some (toSerial 2026 4 10) :=
  claim_generate_head 1 2026 4 10 (by decide) (by decide) (by decide)

/-- C7: the builder emits exactly one record per input date, in the
input order; the record in 0-based position i carries the label
"BASELINE ADJUSTMENT " followed by the 1-based counter i + 1,
independent of the date it carries; and every record of the batch
carries the same execution date. -/
theorem claim_build_event_rows (pid full fn ln la : String) (dates : List Int) :
    (buildEventRows pid full fn ln dates la).length = dates.length
    ∧ (buildEventRows pid full fn ln dates la).map (fun r => r.eventDate) = dates
    ∧ (buildEventRows pid full fn ln dates la).map (fun r => r.eventLabel)
        = (List.range dates.length).map
            (fun i => "BASELINE ADJUSTMENT " ++ toString (i + 1))
    ∧ ∀ r ∈ buildEventRows pid full fn ln dates la, r.loggedAt = la := by
  refine ⟨buildEventRowsAux_length pid full fn ln la dates 1,
    buildEventRowsAux_map_eventDate pid full fn ln la dates 1, ?_, ?_⟩
  · rw [buildEventRows, buildEventRowsAux_map_label]
    apply List.map_congr_left
    intro i _
    have h : 1 + i = i + 1 := by omega
    rw [h]
  · intro r hr
    exact (buildEventRowsAux_fields pid full fn ln la dates 1 r hr).2.2.2.2

/-- Witness for C7 on a concrete two-date batch. -/
theorem claim_build_event_rows_witness :
    (buildEventRows "p" "P Q" "P" "Q" [70000, 69999] "1/2/2026").length = 2
    ∧ ({ personId := "p", fullName := "P Q",
         eventLabel := "BASELINE ADJUSTMENT 1", firstName := "P", lastName := "Q",
         eventDate := 70000, loggedAt := "1/2/2026" } : EventRow).loggedAt
        = "1/2/2026" := by
  have h := claim_build_event_rows "p" "P Q" "P" "Q" "1/2/2026" [70000, 69999]
  exact ⟨h.1, h.2.2.2 _ (by decide)⟩

/-- C9: one run of the loop never writes to the Attendance Stats data
it read; it only appends rows to the Event Attendance log. -/
theorem claim_run_frame (y : Int) (m d : Nat) (loggedAt : String)
    (uat : List UatRow) :
    ∀ st : RunState,
      (updateActivityLevelsRun y m d loggedAt uat st).statsData = st.statsData
      ∧ ∃ newRows, (updateActivityLevelsRun y m d loggedAt uat st).eventLog
          = st.eventLog ++ newRows := by
  induction uat with
  | nil =>
    intro st
    exact ⟨rfl, [], by simp [updateActivityLevelsRun]⟩
  | cons row rest ih =>
    intro st
    obtain ⟨rows, hrows⟩ := processRow_eventLog y m d loggedAt st row
    obtain ⟨hstats, nr, hnr⟩ := ih (processRow y m d loggedAt st row)
    refine ⟨?_, rows ++ nr, ?_⟩
    · rw [updateActivityLevelsRun_cons, hstats, processRow_statsData]
    · rw [updateActivityLevelsRun_cons, hnr, hrows, List.append_assoc]

/-- C8: a stats value that does not parse as a base-10 integer is read
as 0; a matched row's E and K are the raw parses with negatives
accepted as-is; and the Active combination clamps only the final
sum (the formula holds for all integers, negative E and K included). -/
theorem claim_parse_defaults (s : String) (r : StatsRow) (tail : List StatsRow)
    (pid fn ln : String) (E K : Int)
    (hs : parsesAsInt s = false) (hmatch : statsMatches r pid fn ln = true) :
    parseIntOr0 s = 0
    ∧ fetchCurrentStats (r :: tail) pid fn ln
        = (parseIntOr0 r.quarterEvents, parseIntOr0 r.activityScore)
    ∧ resolveScore "active" E K = some (max 0 (min 11 (max 3 (E + K + 3)) - E)) := by
  refine ⟨?_, ?_, resolveScore_active_eq E K⟩
  · unfold parseIntOr0
    unfold parsesAsInt at hs
    cases h : trimL s.data with
    | nil => rfl
    | cons c rest =>
      rw [h] at hs
      simp only [parseSigned]
      split_ifs at hs ⊢ <;> simp_all
  · unfold fetchCurrentStats
    have hf : List.find? (fun rr => statsMatches rr pid fn ln) (r :: tail) = some r := by
      simp [List.find?_cons, hmatch]
    rw [hf]

/-- Witness for C8: a non-numeric value parses to 0, a matched row with
a negative E cell fetches E = −5 unclamped (and a garbage K cell
fetches 0), and the Active formula at E = −5, K = −2 yields 8. -/
theorem claim_parse_defaults_witness :
    parseIntOr0 "abc" = 0
    ∧ fetchCurrentStats
        [({ personId := "p", firstName := "f", lastName := "l",
            quarterEvents := "-5", activityScore := "x" } : StatsRow)]
        "p" "f" "l" = (-5, 0)
    ∧ resolveScore "active" (-5) (-2) = some 8 := by
  have h := claim_parse_defaults "abc"
    ({ personId := "p", firstName := "f", lastName := "l",
        quarterEvents := "-5", activityScore := "x" } : StatsRow) [] "p" "f" "l" (-5) (-2)
    (by decide) (by decide)
  refine ⟨h.1, ?_, ?_⟩
  · rw [h.2.1]
    decide
  · rw [h.2.2]
    decide

/-- C5: a complete row whose trimmed, lowercased level matches none of
inactive/active/core resolves to no score; the person is skipped into
the skip list with identifying detail, no events are generated for
them, the stats data is untouched, and the loop keeps processing the
remaining rows. -/
theorem claim_unknown_level (y : Int) (m d : Nat) (loggedAt : String)
    (st : RunState) (row : UatRow) (rest : List UatRow)
    (hcomp : completeRow row = true)
    (h1 : lowerTrimStr row.activityLevel ≠ "inactive")
    (h2 : lowerTrimStr row.activityLevel ≠ "active")
    (h3 : lowerTrimStr row.activityLevel ≠ "core") :
    (∀ E K : Int, resolveScore (lowerTrimStr row.activityLevel) E K = none)
    ∧ (processRow y m d loggedAt st row).eventLog = st.eventLog
    ∧ (processRow y m d loggedAt st row).skipped = st.skipped ++ [skippedDetail row]
    ∧ (processRow y m d loggedAt st row).statsData = st.statsData
    ∧ updateActivityLevelsRun y m d loggedAt (row :: rest) st
        = updateActivityLevelsRun y m d loggedAt rest (processRow y m d loggedAt st row) := by
  have hnone := fun E K => resolveScore_unknown _ h1 h2 h3 E K
  refine ⟨hnone, ?_, ?_, processRow_statsData y m d loggedAt st row,
    updateActivityLevelsRun_cons y m d loggedAt row rest st⟩
  all_goals
    unfold processRow
    rw [if_pos hcomp, hnone]

/-- Witness for C5 on a complete row whose level is "sometimes". -/
theorem claim_unknown_level_witness :
    (processRow 2026 0 1 "1/1/2026"
        ⟨[], [], [], 0, 0, 0⟩ ⟨"p1", "A B", "B", "A", "sometimes"⟩).eventLog = []
    ∧ (processRow 2026 0 1 "1/1/2026"
        ⟨[], [], [], 0, 0, 0⟩ ⟨"p1", "A B", "B", "A", "sometimes"⟩).skipped
        = [] ++ [skippedDetail ⟨"p1", "A B", "B", "A", "sometimes"⟩] := by
  have h := claim_unknown_level 2026 0 1 "1/1/2026"
    ⟨[], [], [], 0, 0, 0⟩ ⟨"p1", "A B", "B", "A", "sometimes"⟩ []
    (by decide) (by decide) (by decide) (by decide)
  exact ⟨h.2.1, h.2.2.1⟩

/-- Counterexample to C2 as stated: for a Core person (new score
K' = 12) whose reference date is the first day of its quarter, the run
appends 1 event row, not 12: the walk truncates at the quarter
boundary, so the row count is not always exactly K'. -/
theorem claim_backfill_exact_cex :
    resolveScore (lowerTrimStr "Core") 0 0 = some 12
    ∧ (processRow 2026 0 1 "1/1/2026" ⟨[], [], [], 0, 0, 0⟩
        ⟨"p3", "E F", "F", "E", "Core"⟩).eventLog.length = 1 := by
  exact ⟨by decide, by decide⟩

/-- C2 as amended: the number of rows appended for one person equals
min(K', D), where D is the inclusive day count from the quarter start
to the reference date — exactly K' whenever K' ≤ D, and never more
than K' nor more than D. -/
theorem claim_backfill_count (y : Int) (m d : Nat) (loggedAt : String)
    (st : RunState) (row : UatRow) (kNew : Int)
    (hd : 1 ≤ d) (hm : m < 12)
    (hcomp : completeRow row = true)
    (hres : resolveScore (lowerTrimStr row.activityLevel)
        (fetchCurrentStats st.statsData row.personId row.firstName row.lastName).1
        (fetchCurrentStats st.statsData row.personId row.firstName row.lastName).2
      = some kNew) :
    (processRow y m d loggedAt st row).eventLog.length
      = st.eventLog.length
        + min kNew.toNat (toSerial y m d + 1 - toSerial y (quarterStartMonth m) 1).toNat
    ∧ min kNew.toNat (toSerial y m d + 1 - toSerial y (quarterStartMonth m) 1).toNat
        ≤ kNew.toNat := by
  have hqs := quarterStart_le_toSerial y m d hd hm
  have hlen : ∀ k : Int,
      (buildEventRows row.personId row.fullName row.firstName row.lastName
        (generateRecentDistinctDates k y m d) loggedAt).length
      = min k.toNat (toSerial y m d + 1 - toSerial y (quarterStartMonth m) 1).toNat := by
    intro k
    rw [buildEventRows, buildEventRowsAux_length, gen_closed]
    simp
  refine ⟨?_, min_le_left _ _⟩
  unfold processRow
  rw [if_pos hcomp]
  split
  · rename_i heq
    rw [hres] at heq
    simp at heq
  · rename_i k heq
    rw [hres] at heq
    injection heq with hk
    subst hk
    by_cases hk0 : 0 < kNew
    · rw [if_pos hk0]
      have hpos : 0 < (buildEventRows row.personId row.fullName row.firstName row.lastName
          (generateRecentDistinctDates kNew y m d) loggedAt).length := by
        rw [hlen]
        omega
      rw [if_pos hpos]
      simp only [List.length_append, hlen]
    · rw [if_neg hk0]
      have h0 : kNew.toNat = 0 := by omega
      simp [h0]

/-- Witness for C2's amended count: an Active cold-start person
(K' = 3) on January 9 gets exactly 3 = min(3, 9) rows. -/
theorem claim_backfill_count_witness :
    (processRow 2026 0 9 "1/9/2026" ⟨[], [], [], 0, 0, 0⟩
        ⟨"p2", "C D", "D", "C", "Active"⟩).eventLog.length = 3 := by
  have h := claim_backfill_count 2026 0 9 "1/9/2026" ⟨[], [], [], 0, 0, 0⟩
    ⟨"p2", "C D", "D", "C", "Active"⟩ 3 (by decide) (by decide) (by decide) (by decide)
  rw [h.1]
  decide

/-- Counterexample to C6 as stated: the source compares the person id
case-sensitively (only the names case-insensitively), so a stats row
with id "A" is not found for the query id "a": the code lookup yields
the cold-start (0, 0) where the spec-worded case-insensitive lookup
yields the row's values (5, 7). -/
theorem claim_stats_lookup_cex :
    fetchCurrentStats
        [({ personId := "A", firstName := "x", lastName := "y",
            quarterEvents := "5", activityScore := "7" } : StatsRow)] "a" "x" "y"
      = (0, 0)
    ∧ fetchCurrentStatsSpec
        [({ personId := "A", firstName := "x", lastName := "y",
            quarterEvents := "5", activityScore := "7" } : StatsRow)] "a" "x" "y"
      = (5, 7) := by
  exact ⟨by decide, by decide⟩

/-- C6 as amended: the lookup matches on the trimmed person id
(case-sensitive) and the trimmed, lowercased first and last names;
a miss is not an error — the person is treated as a cold start with
(E, K) = (0, 0), is not put on the skip list, and is processed
normally. -/
theorem claim_stats_lookup (data : List StatsRow) (pid fn ln u v w : String)
    (hu : trimStr u = trimStr pid)
    (hv : lowerTrimStr v = lowerTrimStr fn)
    (hw : lowerTrimStr w = lowerTrimStr ln) :
    fetchCurrentStats data u v w = fetchCurrentStats data pid fn ln
    ∧ ((∀ r ∈ data, statsMatches r pid fn ln = false) →
        fetchCurrentStats data pid fn ln = (0, 0))
    ∧ (∀ (y : Int) (m d : Nat) (loggedAt : String) (st : RunState) (row : UatRow),
        (∀ r ∈ st.statsData,
          statsMatches r row.personId row.firstName row.lastName = false) →
        completeRow row = true →
        lowerTrimStr row.activityLevel = "inactive" →
        (processRow y m d loggedAt st row).skipped = st.skipped
        ∧ (processRow y m d loggedAt st row).recordsToProcessCount
            = st.recordsToProcessCount + 1) := by
  have hmiss : ∀ (dt : List StatsRow) (p f l : String),
      (∀ r ∈ dt, statsMatches r p f l = false) →
      fetchCurrentStats dt p f l = (0, 0) := by
    intro dt p f l hno
    unfold fetchCurrentStats
    have hf : List.find? (fun r => statsMatches r p f l) dt = none :=
      List.find?_eq_none.mpr (fun x hx => by rw [hno x hx]; simp)
    rw [hf]
  refine ⟨?_, hmiss data pid fn ln, ?_⟩
  · have hp : (fun r => statsMatches r u v w) = (fun r => statsMatches r pid fn ln) := by
      funext r
      unfold statsMatches
      rw [hu, hv, hw]
    unfold fetchCurrentStats
    rw [hp]
  · intro y m dd la st row hno hcomp hlvl
    have hfetch := hmiss st.statsData row.personId row.firstName row.lastName hno
    unfold processRow
    rw [if_pos hcomp]
    split
    · rename_i heq
      rw [hlvl, hfetch] at heq
      exact absurd heq (by decide)
    · rename_i k heq
      rw [hlvl, hfetch] at heq
      have hk : k = 1 := by
        have h1 : resolveScore "inactive" ((0 : Int), (0 : Int)).1
            ((0 : Int), (0 : Int)).2 = some 1 := rfl
        rw [h1] at heq
        injection heq with hk
        exact hk.symm
      subst hk
      rw [if_pos (by norm_num : (0 : Int) < 1)]
      constructor
      · split <;> rfl
      · split <;> rfl

/-- Witness for C6's amended lookup: padding and case changes on the
name fields do not change the lookup; the empty stats list is a miss
giving (0, 0); and an inactive cold-start person is processed without
entering the skip list. -/
theorem claim_stats_lookup_witness :
    fetchCurrentStats [] " p " "F" "l" = fetchCurrentStats [] "p" "f" "L"
    ∧ fetchCurrentStats [] "p" "f" "L" = (0, 0)
    ∧ (processRow 2026 0 1 "1/1/2026"
        ⟨[], [], [], 0, 0, 0⟩ ⟨"p4", "G H", "H", "G", " Inactive "⟩).skipped = [] := by
  have h := claim_stats_lookup [] "p" "f" "L" " p " "F" "l"
    (by decide) (by decide) (by decide)
  refine ⟨h.1, h.2.1 (by intro r hr; cases hr), ?_⟩
  exact (h.2.2 2026 0 1 "1/1/2026" ⟨[], [], [], 0, 0, 0⟩
    ⟨"p4", "G H", "H", "G", " Inactive "⟩ (by intro r hr; cases hr)
    (by decide) (by decide)).1
